import Mathlib

/-!
Shallow embedding of `src/main.py` of the custom-karaoke repository: a
four-stage pipeline (audio extraction, stem separation, transcription, video
composition) glued together by path bookkeeping and existence-based caching.

The file system is modelled as the list of existing paths.  Each stage returns
its Python return value together with the updated file system and the list of
files it wrote, so that cache behaviour ("skip if the output file exists") is
visible in the write lists.  External collaborators (the separation model, the
speech-to-text model, moviepy clip durations) are supplied as environment
records; their fallible steps return `Except`, with `.error` standing for a
raised Python exception.
-/

namespace Karaoke

/-- Python `str.replace` on character lists, for a nonempty pattern: replaces
non-overlapping occurrences left to right.  `fuel` bounds the recursion;
`fuel = s.length` is exact because every step consumes at least one character. -/
def replFuel : Nat → List Char → List Char → List Char → List Char
  | 0, s, _, _ => s
  | _ + 1, [], _, _ => []
  | f + 1, c :: cs, pat, rep =>
    if pat.isPrefixOf (c :: cs) && !pat.isEmpty then
      rep ++ replFuel f (cs.drop (pat.length - 1)) pat rep
    else
      c :: replFuel f cs pat rep

/-- Python `s.replace(pat, rep)` for a nonempty `pat`: every occurrence of the
substring `pat` is replaced, not just a final extension. -/
def pyReplace (s pat rep : String) : String :=
  ⟨replFuel s.data.length s.data pat.data rep.data⟩

/-- Last `/`-separated component of a path: models both Python
`path.split("/")[-1]` (used in `separate_stems`) and `os.path.basename`
(used in `transcribe`) on the forward-slash paths this pipeline builds. -/
def basename (p : String) : String := ⟨(p.data.reverse.takeWhile (· != '/')).reverse⟩

/-- Splits a character list at its last dot: returns the characters before the
last `.` and the characters after it, or `none` when there is no dot. -/
def splitAtLastDot : List Char → Option (List Char × List Char)
  | [] => none
  | c :: cs =>
    match splitAtLastDot cs with
    | some (a, b) => some (c :: a, b)
    | none => if c = '.' then some ([], cs) else none

/-- Root part of Python `os.path.splitext` on a bare file name: everything
before the last dot, unless every character before that dot is itself a dot
(Python treats leading dots as part of the name, not an extension). -/
def splitextRoot (s : String) : String :=
  match splitAtLastDot s.data with
  | none => s
  | some (a, _) => if a.all (· = '.') then s else ⟨a⟩

/-- Python `os.makedirs(d)` guarded by `os.path.exists(d)`: the file system
with `d` present. -/
def ensureDir (d : String) (fs : List String) : List String :=
  if d ∈ fs then fs else d :: fs

/-- The directories actually created by an `ensureDir` call. -/
def dirWrites (d : String) (fs : List String) : List String :=
  if d ∈ fs then [] else [d]

/-- Configuration constants of `main.py` (lines 15-25). -/
def TRANSCRIPTION_MODEL : String := "medium.en"

def NUM_PASSES : Int := 1

def VOCAL_VOLUME : ℚ := 5 / 100

def VIDEO_WIDTH : Nat := 1280

def VIDEO_HEIGHT : Nat := 720

def TEXT_WIDTH : Nat := 1200

def TEXT_COLOR : String := "#FFFFFF"

def TEXT_STROKE_COLOR : String := "#000000"

def TEXT_STROKE_WIDTH : ℚ := 5 / 10

def FONT_SIZE : Nat := 40

def FONT : String := "./fonts/kg.ttf"

/-- Audio path derived in `video_to_mp3` (line 41):
`video_path.replace(".mp4", ".mp3")`. -/
def audioPathOf (videoPath : String) : String := pyReplace videoPath ".mp4" ".mp3"

/-- Spec-side reading of the derived audio path, stated only for comparison
with `audioPathOf`: the path with its final extension replaced by `.mp3`
("derived by replacing the video file's extension with the audio extension"). -/
def specExtensionReplaced (videoPath : String) : String :=
  splitextRoot videoPath ++ ".mp3"

/-- Result of the extraction stage: return value, file system, files written. -/
structure ExtractOut where
  ret : String
  fs : List String
  fileWrites : List String

/-- Model of `video_to_mp3` (lines 38-48): derive the audio path, return it at
once when it exists, otherwise decode and write the audio file. -/
def video_to_mp3 (fs : List String) (videoPath : String) : ExtractOut :=
  if audioPathOf videoPath ∈ fs then
    ⟨audioPathOf videoPath, fs, []⟩
  else
    ⟨audioPathOf videoPath, audioPathOf videoPath :: fs, [audioPathOf videoPath]⟩

/-- Sample-wise sum of two waveforms (demucs tensor addition). -/
def addWave (a b : List ℚ) : List ℚ := List.zipWith (· + ·) a b

/-- The four stems returned by the separation model, in the `separated.items()`
order of the demucs model sources: drums, bass, other, vocals. -/
structure Separated where
  drums : List ℚ
  bass : List ℚ
  other : List ℚ
  vocals : List ℚ

/-- Content of the synthesized music file (lines 72-73):
`separated["other"] + separated["drums"] + separated["bass"]`. -/
def musicMix (s : Separated) : List ℚ := addWave (addWave s.other s.drums) s.bass

/-- The five `(path, samples)` pairs `separate_stems` writes on a cache miss:
the four stems from the loop over `separated.items()`, then the synthesized
music file. -/
def stemEntries (sep : Separated) (fn : String) : List (String × List ℚ) :=
  [("./stems/drums_" ++ fn, sep.drums),
   ("./stems/bass_" ++ fn, sep.bass),
   ("./stems/other_" ++ fn, sep.other),
   ("./stems/vocals_" ++ fn, sep.vocals),
   ("./stems/music_" ++ fn, musicMix sep)]

/-- Result of the separation stage. -/
structure SepOut where
  vocalsPath : String
  musicPath : String
  fs : List String
  fileWrites : List String
  contentWrites : List (String × List ℚ)
  mkdirs : List String

/-- Model of `separate_stems` (lines 51-75): create `./stems` if absent, then
return the cached paths when the vocals file exists, otherwise write the four
stems and the synthesized music file. -/
def separate_stems (sep : Separated) (fs : List String) (audioPath : String) : SepOut :=
  if "./stems/vocals_" ++ basename audioPath ∈ ensureDir "./stems" fs then
    ⟨"./stems/vocals_" ++ basename audioPath, "./stems/music_" ++ basename audioPath,
      ensureDir "./stems" fs, [], [], dirWrites "./stems" fs⟩
  else
    ⟨"./stems/vocals_" ++ basename audioPath, "./stems/music_" ++ basename audioPath,
      (stemEntries sep (basename audioPath)).map Prod.fst ++ ensureDir "./stems" fs,
      (stemEntries sep (basename audioPath)).map Prod.fst,
      stemEntries sep (basename audioPath),
      dirWrites "./stems" fs⟩

/-- One timed text segment of a Whisper transcript. -/
structure Segment where
  start : ℚ
  stop : ℚ
  text : String

/-- Whisper transcription result: a list of timed segments. -/
abbrev Transcript := List Segment

/-- Outcomes of the fallible steps inside `transcribe`: loading the model,
each transcription pass, and the subtitle write; `.error` models a raised
exception. -/
structure TransEnv where
  loadModel : Except String Unit
  passResult : Nat → Except String Transcript
  writeResult : Transcript → Except String Unit

/-- The pass loop of `transcribe` (lines 102-107): runs passes `0 .. n-1`,
keeping only the last result; a raising pass propagates, and zero passes leave
`last_result = None`. -/
def runPasses (pass : Nat → Except String Transcript) : Nat → Except String (Option Transcript)
  | 0 => .ok none
  | n + 1 =>
    match runPasses pass n with
    | .error e => .error e
    | .ok _ =>
      match pass n with
      | .error e => .error e
      | .ok t => .ok (some t)

/-- Subtitle path built in `transcribe` (lines 90-91):
`os.path.join("./subtitles", splitext(basename(p))[0] + ".srt")`. -/
def subtitlePathOf (audioPath : String) : String :=
  "./subtitles/" ++ splitextRoot (basename audioPath) ++ ".srt"

/-- Message printed by the exception handler of `transcribe` (line 118). -/
def transcriptErrMsg (e : String) : String := "Error converting MP3 to transcript: " ++ e

/-- Result of the transcription stage; `log` holds the error message printed
by the handler, empty on success. -/
structure TransOut where
  ret : String
  fs : List String
  fileWrites : List String
  log : List String

/-- Model of `transcribe` (lines 78-119): cached-subtitle short circuit, else
directory creation, model load, pass loop, the internal `ValueError` when no
pass ran, and the subtitle write; every raise is caught and turned into the
empty-string sentinel plus a printed message. -/
def transcribe (env : TransEnv) (fs : List String) (audioPath : String)
    (numPasses : Int) : TransOut :=
  if subtitlePathOf audioPath ∈ fs then
    ⟨subtitlePathOf audioPath, fs, [], []⟩
  else
    match env.loadModel with
    | .error e => ⟨"", ensureDir "./subtitles" fs, [], [transcriptErrMsg e]⟩
    | .ok _ =>
      match runPasses env.passResult numPasses.toNat with
      | .error e => ⟨"", ensureDir "./subtitles" fs, [], [transcriptErrMsg e]⟩
      | .ok none =>
        ⟨"", ensureDir "./subtitles" fs, [],
          [transcriptErrMsg "No transcription results obtained."]⟩
      | .ok (some t) =>
        match env.writeResult t with
        | .error e => ⟨"", ensureDir "./subtitles" fs, [], [transcriptErrMsg e]⟩
        | .ok _ =>
          ⟨subtitlePathOf audioPath,
            subtitlePathOf audioPath :: ensureDir "./subtitles" fs,
            [subtitlePathOf audioPath], []⟩

/-- Caption clip produced by the Composer's `generator` (lines 150-169):
the text plus the fixed style arguments of the `TextClip` call. -/
structure TextClip where
  text : String
  font : String
  fontsize : Nat
  color : String
  strokeColor : String
  strokeWidth : ℚ
  boxWidth : Nat
  method : String

/-- The Composer's caption generator: one fixed style for every subtitle
text (the function body does not inspect `txt`). -/
def generator (txt : String) : TextClip :=
  ⟨txt, FONT, FONT_SIZE, TEXT_COLOR, TEXT_STROKE_COLOR, TEXT_STROKE_WIDTH,
    TEXT_WIDTH, "pango"⟩

/-- The styling of a rendered caption: every field except the text. -/
def styleOf (c : TextClip) : String × Nat × String × String × ℚ × Nat × String :=
  (c.font, c.fontsize, c.color, c.strokeColor, c.strokeWidth, c.boxWidth, c.method)

/-- numpy `astype("uint8")` on a nonnegative scalar: truncate to an integer and
wrap modulo 256. -/
def astypeUint8 (x : ℚ) : Nat := (Int.toNat ⌊x⌋) % 256

/-- Per-pixel dimming of line 146, `(image * 0.3).astype("uint8")`.  The float
factor 0.3 is modelled by the rational 3/10: for every 8-bit input `v` the
double product `v * 0.3` rounds to nearest within a half-ulp of `3v/10`, whose
distance to the next integer below is at least `1/10` (or which it attains
exactly), so truncation agrees with `⌊3v/10⌋`. -/
def dimPixel (v : Nat) : Nat := astypeUint8 ((v : ℚ) * (3 / 10))

/-- Dimming applied to one frame: the same per-pixel map on every pixel. -/
def dimImage (img : List (List Nat)) : List (List Nat) := img.map (List.map dimPixel)

/-- The `fl_image` call of lines 145-146: the same per-frame transform applied
to every frame of the background clip. -/
def dimFrames (frames : List (List (List Nat))) : List (List (List Nat)) :=
  frames.map dimImage

/-- moviepy video clip attributes the Composer manipulates. -/
structure VideoClip where
  duration : ℚ
  fps : ℚ
  width : Nat
  height : Nat

/-- moviepy `set_fps`. -/
def VideoClip.setFps (c : VideoClip) (f : ℚ) : VideoClip := { c with fps := f }

/-- moviepy `set_duration`. -/
def VideoClip.setDuration (c : VideoClip) (d : ℚ) : VideoClip := { c with duration := d }

/-- External collaborators of `create`: the transcription environment, the
separation output, audio durations as moviepy reports them per path, the
source video's duration and frame rate, and the end time of the last rendered
subtitle of a given subtitles file. -/
structure Env where
  tenv : TransEnv
  sep : Separated
  audioDur : String → ℚ
  videoDur : ℚ
  videoFps : ℚ
  subsEnd : String → ℚ

/-- Result of the Composer: output name and path, file system, the per-stage
results, the mixed-audio duration, the background clip after `set_fps` and
`set_duration`, the composite duration, the encode frame rate and all file
writes of the run. -/
structure CreateOut where
  filename : String
  outPath : String
  fs : List String
  extract : ExtractOut
  sepOut : SepOut
  trans : TransOut
  combinedDur : ℚ
  background : VideoClip
  finalDur : ℚ
  outFps : ℚ
  fileWrites : List String

/-- Model of `create` (lines 122-183), the successful execution trace of the
Composer: extraction, separation, mixed audio whose duration is the maximum of
its parts, the background clip resized and forced to 30 fps and to the audio
duration, transcription of the vocals stem, composite duration as the maximum
of the clip ends, and the final encode at fps 30 into `./output`.  moviepy
failures (for instance loading an empty subtitles path after a transcription
failure) abort the process and are outside this model. -/
def create (env : Env) (fs0 : List String) (videoPath : String) : CreateOut :=
  let m := video_to_mp3 fs0 videoPath
  let s := separate_stems env.sep m.fs m.ret
  let combinedDur := max (env.audioDur s.musicPath) (env.audioDur s.vocalsPath)
  let bg := (VideoClip.setFps ⟨env.videoDur, env.videoFps, VIDEO_WIDTH, VIDEO_HEIGHT⟩ 30).setDuration
    combinedDur
  let t := transcribe env.tenv s.fs s.vocalsPath NUM_PASSES
  let finalDur := max bg.duration (env.subsEnd t.ret)
  ⟨"karaoke_" ++ basename videoPath,
    "./output/karaoke_" ++ basename videoPath,
    ("./output/karaoke_" ++ basename videoPath) :: ensureDir "./output" t.fs,
    m, s, t, combinedDur, bg, finalDur, 30,
    m.fileWrites ++ s.fileWrites ++ t.fileWrites ++ ["./output/karaoke_" ++ basename videoPath]⟩

/-- Concrete separation output used by witnesses. -/
def sep0 : Separated := ⟨[1, 2], [3, 4], [5, 6], [7, 8]⟩

/-- Concrete all-succeeding transcription environment used by witnesses. -/
def tenv0 : TransEnv := ⟨.ok (), fun _ => .ok [⟨0, 1, "la"⟩], fun _ => .ok ()⟩

/-- Transcription environment whose passes would raise, used to witness the
zero-pass behaviour (the pass loop never runs, so `passResult` is never used). -/
def tenvNoPass : TransEnv := ⟨.ok (), fun _ => .error "boom", fun _ => .ok ()⟩

/-- Concrete pipeline environment used by witnesses. -/
def env0 : Env := ⟨tenv0, sep0, fun _ => 100, 95, 24, fun _ => 100⟩

theorem addWave_comm (a b : List ℚ) : addWave a b = addWave b a := by
  induction a generalizing b with
  | nil => cases b <;> rfl
  | cons x xs ih =>
    cases b with
    | nil => rfl
    | cons y ys =>
      show (x + y) :: addWave xs ys = (y + x) :: addWave ys xs
      rw [add_comm, ih ys]

theorem addWave_assoc (a b c : List ℚ) :
    addWave (addWave a b) c = addWave a (addWave b c) := by
  induction a generalizing b c with
  | nil => rfl
  | cons x xs ih =>
    cases b with
    | nil => rfl
    | cons y ys =>
      cases c with
      | nil => rfl
      | cons z zs =>
        show (x + y + z) :: addWave (addWave xs ys) zs
            = (x + (y + z)) :: addWave xs (addWave ys zs)
        rw [add_assoc, ih ys zs]

theorem musicMix_eq_sum (s : Separated) :
    musicMix s = addWave (addWave s.drums s.bass) s.other := by
  show addWave (addWave s.other s.drums) s.bass = addWave (addWave s.drums s.bass) s.other
  rw [addWave_comm (addWave s.drums s.bass) s.other, ← addWave_assoc,
    addWave_comm s.other s.drums]

theorem mem_ensureDir_of_mem (d : String) (fs : List String) (x : String)
    (h : x ∈ fs) : x ∈ ensureDir d fs := by
  unfold ensureDir
  split
  · exact h
  · exact List.mem_cons_of_mem _ h

theorem self_mem_ensureDir (d : String) (fs : List String) : d ∈ ensureDir d fs := by
  unfold ensureDir
  split
  · assumption
  · exact List.mem_cons_self _ _

theorem mem_of_mem_ensureDir {d : String} {fs : List String} {x : String}
    (h : x ∈ ensureDir d fs) : x = d ∨ x ∈ fs := by
  unfold ensureDir at h
  split at h
  · exact Or.inr h
  · rcases List.mem_cons.mp h with h2 | h2
    · exact Or.inl h2
    · exact Or.inr h2

theorem vocals_ne_stems (fn : String) : "./stems/vocals_" ++ fn ≠ "./stems" := by
  intro h
  have h2 := congrArg String.length h
  rw [String.length_append] at h2
  have e1 : ("./stems/vocals_" : String).length = 15 := rfl
  have e2 : ("./stems" : String).length = 7 := rfl
  rw [e1, e2] at h2
  omega

theorem video_to_mp3_ret (fs : List String) (p : String) :
    (video_to_mp3 fs p).ret = audioPathOf p := by
  unfold video_to_mp3
  split <;> rfl

theorem video_to_mp3_hit (fs : List String) (p : String) (h : audioPathOf p ∈ fs) :
    video_to_mp3 fs p = ⟨audioPathOf p, fs, []⟩ := by
  unfold video_to_mp3
  rw [if_pos h]

theorem video_to_mp3_miss (fs : List String) (p : String) (h : audioPathOf p ∉ fs) :
    video_to_mp3 fs p = ⟨audioPathOf p, audioPathOf p :: fs, [audioPathOf p]⟩ := by
  unfold video_to_mp3
  rw [if_neg h]

theorem audioPath_mem_video_to_mp3_fs (fs : List String) (p : String) :
    audioPathOf p ∈ (video_to_mp3 fs p).fs := by
  unfold video_to_mp3
  split
  · assumption
  · exact List.mem_cons_self _ _

theorem mem_video_to_mp3_fs (fs : List String) (p x : String) (h : x ∈ fs) :
    x ∈ (video_to_mp3 fs p).fs := by
  unfold video_to_mp3
  split
  · exact h
  · exact List.mem_cons_of_mem _ h

theorem separate_stems_vocalsPath (sep : Separated) (fs : List String) (p : String) :
    (separate_stems sep fs p).vocalsPath = "./stems/vocals_" ++ basename p := by
  unfold separate_stems
  split <;> rfl

theorem separate_stems_hit (sep : Separated) (fs : List String) (p : String)
    (h : "./stems/vocals_" ++ basename p ∈ fs) :
    separate_stems sep fs p =
      ⟨"./stems/vocals_" ++ basename p, "./stems/music_" ++ basename p,
        ensureDir "./stems" fs, [], [], dirWrites "./stems" fs⟩ := by
  unfold separate_stems
  rw [if_pos (mem_ensureDir_of_mem _ _ _ h)]

theorem separate_stems_miss (sep : Separated) (fs : List String) (p : String)
    (h : "./stems/vocals_" ++ basename p ∉ fs) :
    separate_stems sep fs p =
      ⟨"./stems/vocals_" ++ basename p, "./stems/music_" ++ basename p,
        (stemEntries sep (basename p)).map Prod.fst ++ ensureDir "./stems" fs,
        (stemEntries sep (basename p)).map Prod.fst,
        stemEntries sep (basename p),
        dirWrites "./stems" fs⟩ := by
  unfold separate_stems
  rw [if_neg]
  intro hmem
  rcases mem_of_mem_ensureDir hmem with he | hm
  · exact vocals_ne_stems _ he
  · exact h hm

theorem mem_separate_stems_fs (sep : Separated) (fs : List String) (p x : String)
    (h : x ∈ fs) : x ∈ (separate_stems sep fs p).fs := by
  unfold separate_stems
  split
  · exact mem_ensureDir_of_mem _ _ _ h
  · exact List.mem_append_right _ (mem_ensureDir_of_mem _ _ _ h)

theorem vocals_mem_separate_stems_fs (sep : Separated) (fs : List String) (p : String) :
    "./stems/vocals_" ++ basename p ∈ (separate_stems sep fs p).fs := by
  unfold separate_stems
  split
  · assumption
  · exact List.mem_append_left _ (by simp [stemEntries])

theorem stems_dir_mem_separate_stems_fs (sep : Separated) (fs : List String) (p : String) :
    "./stems" ∈ (separate_stems sep fs p).fs := by
  unfold separate_stems
  split
  · exact self_mem_ensureDir _ _
  · exact List.mem_append_right _ (self_mem_ensureDir _ _)

theorem transcribe_hit (env : TransEnv) (fs : List String) (p : String) (n : Int)
    (h : subtitlePathOf p ∈ fs) :
    transcribe env fs p n = ⟨subtitlePathOf p, fs, [], []⟩ := by
  unfold transcribe
  rw [if_pos h]

theorem mem_transcribe_fs (env : TransEnv) (fs : List String) (p : String) (n : Int)
    (x : String) (h : x ∈ fs) : x ∈ (transcribe env fs p n).fs := by
  unfold transcribe
  split
  · exact h
  · split
    · exact mem_ensureDir_of_mem _ _ _ h
    · split
      · exact mem_ensureDir_of_mem _ _ _ h
      · exact mem_ensureDir_of_mem _ _ _ h
      · split
        · exact mem_ensureDir_of_mem _ _ _ h
        · exact List.mem_cons_of_mem _ (mem_ensureDir_of_mem _ _ _ h)

theorem transcribe_ret_of_ne (env : TransEnv) (fs : List String) (p : String) (n : Int)
    (h : (transcribe env fs p n).ret ≠ "") :
    (transcribe env fs p n).ret = subtitlePathOf p ∧
      subtitlePathOf p ∈ (transcribe env fs p n).fs := by
  by_cases hc : subtitlePathOf p ∈ fs
  · rw [transcribe_hit env fs p n hc]
    exact ⟨rfl, hc⟩
  · rcases hl : env.loadModel with e | u
    · have heq : transcribe env fs p n
          = ⟨"", ensureDir "./subtitles" fs, [], [transcriptErrMsg e]⟩ := by
        simp only [transcribe, if_neg hc, hl]
      rw [heq] at h
      simp at h
    · rcases hr : runPasses env.passResult n.toNat with e | o
      · have heq : transcribe env fs p n
            = ⟨"", ensureDir "./subtitles" fs, [], [transcriptErrMsg e]⟩ := by
          simp only [transcribe, if_neg hc, hl, hr]
        rw [heq] at h
        simp at h
      · cases o with
        | none =>
          have heq : transcribe env fs p n
              = ⟨"", ensureDir "./subtitles" fs, [],
                  [transcriptErrMsg "No transcription results obtained."]⟩ := by
            simp only [transcribe, if_neg hc, hl, hr]
          rw [heq] at h
          simp at h
        | some t =>
          rcases hw : env.writeResult t with e | u2
          · have heq : transcribe env fs p n
                = ⟨"", ensureDir "./subtitles" fs, [], [transcriptErrMsg e]⟩ := by
              simp only [transcribe, if_neg hc, hl, hr, hw]
            rw [heq] at h
            simp at h
          · have heq : transcribe env fs p n
                = ⟨subtitlePathOf p, subtitlePathOf p :: ensureDir "./subtitles" fs,
                    [subtitlePathOf p], []⟩ := by
              simp only [transcribe, if_neg hc, hl, hr, hw]
            rw [heq]
            exact ⟨rfl, List.mem_cons_self _ _⟩

theorem transcribe_success_one_pass (env : TransEnv) (fs : List String) (p : String)
    (hc : subtitlePathOf p ∉ fs) (hml : env.loadModel = .ok ())
    (tr : Transcript) (hp : env.passResult 0 = .ok tr)
    (hw : env.writeResult tr = .ok ()) :
    transcribe env fs p NUM_PASSES =
      ⟨subtitlePathOf p, subtitlePathOf p :: ensureDir "./subtitles" fs,
        [subtitlePathOf p], []⟩ := by
  have h1 : runPasses env.passResult 1
      = (match env.passResult 0 with
         | .error e => .error e
         | .ok t => .ok (some t)) := rfl
  have hr : runPasses env.passResult (NUM_PASSES.toNat) = .ok (some tr) := by
    show runPasses env.passResult 1 = .ok (some tr)
    rw [h1, hp]
  simp only [transcribe, if_neg hc, hml, hr, hw]

theorem create_extract_eq (env : Env) (fs0 : List String) (p : String) :
    (create env fs0 p).extract = video_to_mp3 fs0 p := rfl

theorem create_sep_eq (env : Env) (fs0 : List String) (p : String) :
    (create env fs0 p).sepOut
      = separate_stems env.sep (video_to_mp3 fs0 p).fs (video_to_mp3 fs0 p).ret := rfl

theorem create_trans_eq (env : Env) (fs0 : List String) (p : String) :
    (create env fs0 p).trans
      = transcribe env.tenv (create env fs0 p).sepOut.fs
          (create env fs0 p).sepOut.vocalsPath NUM_PASSES := rfl

theorem create_fs_eq (env : Env) (fs0 : List String) (p : String) :
    (create env fs0 p).fs
      = ("./output/karaoke_" ++ basename p)
          :: ensureDir "./output" (create env fs0 p).trans.fs := rfl

theorem create_outPath_eq (env : Env) (fs0 : List String) (p : String) :
    (create env fs0 p).outPath = "./output/karaoke_" ++ basename p := rfl

theorem create_writes_eq (env : Env) (fs0 : List String) (p : String) :
    (create env fs0 p).fileWrites
      = (create env fs0 p).extract.fileWrites ++ (create env fs0 p).sepOut.fileWrites
          ++ (create env fs0 p).trans.fileWrites ++ [(create env fs0 p).outPath] := rfl

theorem outPath_mem_create_writes (env : Env) (fs0 : List String) (p : String) :
    (create env fs0 p).outPath ∈ (create env fs0 p).fileWrites := by
  rw [create_writes_eq]
  simp

/-- C1: for every separation result, on a cache miss the synthesized "music"
file written last by `separate_stems` holds exactly the sample-wise sum of the
drums, bass and "other" stems (the code writes `other + drums + bass`, equal to
that sum by commutativity and associativity of sample addition). -/
theorem C1_music_is_stem_sum (sep : Separated) (fs : List String) (p : String)
    (h : "./stems/vocals_" ++ basename p ∉ fs) :
    (separate_stems sep fs p).contentWrites.getLast?
      = some ("./stems/music_" ++ basename p,
          addWave (addWave sep.drums sep.bass) sep.other) := by
  rw [separate_stems_miss sep fs p h]
  show (stemEntries sep (basename p)).getLast? = _
  simp [stemEntries, musicMix_eq_sum]

theorem C1_music_is_stem_sum_witness :
    (separate_stems sep0 [] "song.mp3").contentWrites.getLast?
      = some ("./stems/music_" ++ basename "song.mp3",
          addWave (addWave sep0.drums sep0.bass) sep0.other) :=
  C1_music_is_stem_sum sep0 [] "song.mp3" (by simp)

/-- C2 counterexample: the caption the Composer generates for the sentinel
"instrumental" has exactly the same styling (font, size, colors, stroke, box
width, method) as the caption for an ordinary lyric — the generator never
inspects its text, so no alternate dimmer or smaller styling exists. -/
theorem C2_instrumental_style_counterexample :
    styleOf (generator "instrumental")
        = styleOf (generator "Twinkle twinkle little star") ∧
      (generator "instrumental").fontsize
        = (generator "Twinkle twinkle little star").fontsize ∧
      (generator "instrumental").color
        = (generator "Twinkle twinkle little star").color :=
  ⟨rfl, rfl, rfl⟩

/-- C2 amended: the Composer renders every transcript segment, the sentinel
"instrumental" included, with one identical fixed styling; only the text
differs between captions. -/
theorem C2_uniform_caption_style (t1 t2 : String) :
    styleOf (generator t1) = styleOf (generator t2) ∧ (generator t1).text = t1 :=
  ⟨rfl, rfl⟩

/-- C3: `transcribe` never propagates an exception: either every step succeeds
(or the cache hits) and the subtitle path is returned with nothing logged, or
some step raises, the handler logs a message, and the empty string is returned
in place of a subtitle path. -/
theorem C3_transcribe_never_raises (env : TransEnv) (fs : List String) (p : String)
    (n : Int) :
    ((transcribe env fs p n).ret = subtitlePathOf p ∧ (transcribe env fs p n).log = []) ∨
      ((transcribe env fs p n).ret = "" ∧ (transcribe env fs p n).log ≠ []) := by
  by_cases hc : subtitlePathOf p ∈ fs
  · left
    rw [transcribe_hit env fs p n hc]
    exact ⟨rfl, rfl⟩
  · rcases hl : env.loadModel with e | u
    · right
      have heq : transcribe env fs p n
          = ⟨"", ensureDir "./subtitles" fs, [], [transcriptErrMsg e]⟩ := by
        simp only [transcribe, if_neg hc, hl]
      rw [heq]
      exact ⟨rfl, by simp⟩
    · rcases hr : runPasses env.passResult n.toNat with e | o
      · right
        have heq : transcribe env fs p n
            = ⟨"", ensureDir "./subtitles" fs, [], [transcriptErrMsg e]⟩ := by
          simp only [transcribe, if_neg hc, hl, hr]
        rw [heq]
        exact ⟨rfl, by simp⟩
      · cases o with
        | none =>
          right
          have heq : transcribe env fs p n
              = ⟨"", ensureDir "./subtitles" fs, [],
                  [transcriptErrMsg "No transcription results obtained."]⟩ := by
            simp only [transcribe, if_neg hc, hl, hr]
          rw [heq]
          exact ⟨rfl, by simp⟩
        | some t =>
          rcases hw : env.writeResult t with e | u2
          · right
            have heq : transcribe env fs p n
                = ⟨"", ensureDir "./subtitles" fs, [], [transcriptErrMsg e]⟩ := by
              simp only [transcribe, if_neg hc, hl, hr, hw]
            rw [heq]
            exact ⟨rfl, by simp⟩
          · left
            have heq : transcribe env fs p n
                = ⟨subtitlePathOf p, subtitlePathOf p :: ensureDir "./subtitles" fs,
                    [subtitlePathOf p], []⟩ := by
              simp only [transcribe, if_neg hc, hl, hr, hw]
            rw [heq]
            exact ⟨rfl, rfl⟩

/-- C4 counterexample: on the video path "a.mp4.mp4" the code's
`replace(".mp4", ".mp3")` rewrites every occurrence of the substring, returning
"a.mp3.mp3", while replacing the file's extension would give "a.mp4.mp3". -/
theorem C4_replace_all_counterexample :
    (video_to_mp3 [] "a.mp4.mp4").ret = "a.mp3.mp3" ∧
      specExtensionReplaced "a.mp4.mp4" = "a.mp4.mp3" ∧
      (video_to_mp3 [] "a.mp4.mp4").ret ≠ specExtensionReplaced "a.mp4.mp4" := by
  decide

/-- C4 amended: `video_to_mp3` returns the input path with every occurrence of
the substring ".mp4" replaced by ".mp3" (which coincides with replacing the
extension exactly when ".mp4" occurs only as the final extension), and when
that derived path already exists it returns immediately without writing or
otherwise changing the file system. -/
theorem C4_audio_path_and_cache (fs : List String) (p : String) :
    (video_to_mp3 fs p).ret = pyReplace p ".mp4" ".mp3" ∧
      (pyReplace p ".mp4" ".mp3" ∈ fs →
        (video_to_mp3 fs p).fileWrites = [] ∧ (video_to_mp3 fs p).fs = fs) := by
  refine ⟨video_to_mp3_ret fs p, ?_⟩
  intro h
  rw [video_to_mp3_hit fs p h]
  exact ⟨rfl, rfl⟩

theorem C4_audio_path_and_cache_witness :
    (video_to_mp3 ["song.mp3"] "song.mp4").ret = pyReplace "song.mp4" ".mp4" ".mp3" ∧
      (video_to_mp3 ["song.mp3"] "song.mp4").fileWrites = [] ∧
      (video_to_mp3 ["song.mp3"] "song.mp4").fs = ["song.mp3"] := by
  have h := C4_audio_path_and_cache ["song.mp3"] "song.mp4"
  exact ⟨h.1, h.2 (by decide)⟩

/-- C7: dimming applies one fixed per-pixel map uniformly to every pixel of
every frame; on every 8-bit input the map is the truncation of `0.3 * v`,
namely `3 * v / 10`, which stays inside the 8-bit range, so the uint8
conversion never wraps or clips. -/
theorem C7_uniform_dimming (frames : List (List (List Nat))) (v : Nat)
    (hv : v ≤ 255) :
    dimFrames frames = frames.map (List.map (List.map dimPixel)) ∧
      dimPixel v = 3 * v / 10 ∧ dimPixel v ≤ 255 := by
  have he : dimPixel v = 3 * v / 10 := by
    unfold dimPixel astypeUint8
    rw [Int.floor_toNat]
    have hx : ((v : ℚ) * (3 / 10)) = ((3 * v : ℕ) : ℚ) / ((10 : ℕ) : ℚ) := by
      push_cast
      ring
    rw [hx, Nat.floor_div_nat, Nat.floor_natCast]
    have hlt : 3 * v / 10 < 256 := by omega
    exact Nat.mod_eq_of_lt hlt
  refine ⟨rfl, he, ?_⟩
  rw [he]
  omega

theorem C7_uniform_dimming_witness :
    dimFrames [[[0, 255]]] = [[[0, 255]]].map (List.map (List.map dimPixel)) ∧
      dimPixel 255 = 3 * 255 / 10 ∧ dimPixel 255 ≤ 255 :=
  C7_uniform_dimming [[[0, 255]]] 255 (by decide)

/-- C8: the Composer sets the background clip's duration to the mixed audio's
duration and forces 30 fps both on the clip and at encode time, whatever the
source video's frame rate; when the rendered subtitles end within the audio
(as Whisper timestamps of the transcribed stem do), the final composite
duration equals the mixed audio duration exactly. -/
theorem C8_duration_and_fps (env : Env) (fs : List String) (p : String)
    (hsub : env.subsEnd (create env fs p).trans.ret ≤ (create env fs p).combinedDur) :
    (create env fs p).background.duration = (create env fs p).combinedDur ∧
      (create env fs p).background.fps = 30 ∧
      (create env fs p).outFps = 30 ∧
      (create env fs p).finalDur = (create env fs p).combinedDur := by
  refine ⟨rfl, rfl, rfl, ?_⟩
  have he : (create env fs p).finalDur
      = max (create env fs p).combinedDur
          (env.subsEnd (create env fs p).trans.ret) := rfl
  rw [he, max_eq_left hsub]

theorem C8_duration_and_fps_witness :
    (create env0 ["song.mp4"] "song.mp4").background.duration
        = (create env0 ["song.mp4"] "song.mp4").combinedDur ∧
      (create env0 ["song.mp4"] "song.mp4").background.fps = 30 ∧
      (create env0 ["song.mp4"] "song.mp4").outFps = 30 ∧
      (create env0 ["song.mp4"] "song.mp4").finalDur
        = (create env0 ["song.mp4"] "song.mp4").combinedDur :=
  C8_duration_and_fps env0 ["song.mp4"] "song.mp4" (le_max_left _ _)

/-- C9: with a nonpositive pass count and no cached subtitle file, the pass
loop never executes, `last_result` stays `None`, the internal `ValueError` is
raised and caught, and `transcribe` returns the empty-string sentinel having
written no file. -/
theorem C9_zero_passes_value_error (env : TransEnv) (fs : List String) (p : String)
    (n : Int) (hn : n ≤ 0) (hc : subtitlePathOf p ∉ fs)
    (hml : env.loadModel = .ok ()) :
    (transcribe env fs p n).ret = "" ∧ (transcribe env fs p n).fileWrites = [] ∧
      (transcribe env fs p n).log
        = [transcriptErrMsg "No transcription results obtained."] := by
  have h0 : n.toNat = 0 := Int.toNat_of_nonpos hn
  have hr : runPasses env.passResult n.toNat = .ok none := by
    rw [h0]
    rfl
  have heq : transcribe env fs p n
      = ⟨"", ensureDir "./subtitles" fs, [],
          [transcriptErrMsg "No transcription results obtained."]⟩ := by
    simp only [transcribe, if_neg hc, hml, hr]
  rw [heq]
  exact ⟨rfl, rfl, rfl⟩

theorem C9_zero_passes_value_error_witness :
    (transcribe tenvNoPass [] "a.mp3" 0).ret = "" ∧
      (transcribe tenvNoPass [] "a.mp3" 0).fileWrites = [] ∧
      (transcribe tenvNoPass [] "a.mp3" 0).log
        = [transcriptErrMsg "No transcription results obtained."] :=
  C9_zero_passes_value_error tenvNoPass [] "a.mp3" 0 (by decide) (by simp) rfl

/-- C10: every call to `separate_stems` leaves the `./stems` directory in
existence (it is created before the cache check), and a cache hit writes no
stem files — its only file-system mutation is that directory creation. -/
theorem C10_stems_dir_ensured (sep : Separated) (fs : List String) (p : String) :
    "./stems" ∈ (separate_stems sep fs p).fs ∧
      ((separate_stems sep fs p).vocalsPath ∈ fs →
        (separate_stems sep fs p).fileWrites = [] ∧
        (separate_stems sep fs p).contentWrites = [] ∧
        (separate_stems sep fs p).mkdirs = dirWrites "./stems" fs ∧
        (separate_stems sep fs p).fs = ensureDir "./stems" fs) := by
  refine ⟨stems_dir_mem_separate_stems_fs sep fs p, ?_⟩
  intro hv
  rw [separate_stems_vocalsPath] at hv
  rw [separate_stems_hit sep fs p hv]
  exact ⟨rfl, rfl, rfl, rfl⟩

theorem C10_stems_dir_ensured_witness :
    "./stems" ∈ (separate_stems sep0 ["./stems/vocals_song.mp3"] "song.mp3").fs ∧
      (separate_stems sep0 ["./stems/vocals_song.mp3"] "song.mp3").fileWrites = [] ∧
      (separate_stems sep0 ["./stems/vocals_song.mp3"] "song.mp3").mkdirs
        = ["./stems"] := by
  have h := C10_stems_dir_ensured sep0 ["./stems/vocals_song.mp3"] "song.mp3"
  have h2 := h.2 (by decide)
  refine ⟨h.1, h2.1, ?_⟩
  rw [h2.2.2.1]
  decide

/-- C5 counterexample: one pipeline run on "song.mp4" with no pre-existing
cache writes "./subtitles/vocals_song.srt" — not "subtitles/song.srt" in
either spelling — because the Transcriber is fed the vocals stem, whose
basename keys the subtitle name; the stem loop also writes the raw drum stem,
so the claimed artifact list is not exact. -/
theorem C5_subtitle_name_counterexample :
    "./subtitles/song.srt" ∉ (create env0 ["song.mp4"] "song.mp4").fileWrites ∧
      "subtitles/song.srt" ∉ (create env0 ["song.mp4"] "song.mp4").fileWrites ∧
      "./subtitles/vocals_song.srt" ∈ (create env0 ["song.mp4"] "song.mp4").fileWrites ∧
      "./stems/drums_song.mp3" ∈ (create env0 ["song.mp4"] "song.mp4").fileWrites := by
  decide

/-- C5 amended: one pipeline run on "song.mp4" with no pre-existing cached
artifacts writes exactly "song.mp3", the four raw stems
"stems/{drums,bass,other,vocals}_song.mp3", the synthesized
"stems/music_song.mp3", the subtitle file "subtitles/vocals_song.srt" (the
subtitle name for input "name.mp4" is "subtitles/vocals_name.srt"), and
"output/karaoke_song.mp4". -/
theorem C5_first_run_artifacts (env : Env) (fs0 : List String)
    (hml : env.tenv.loadModel = .ok ())
    (hps : ∃ tr, env.tenv.passResult 0 = .ok tr ∧ env.tenv.writeResult tr = .ok ())
    (h1 : "song.mp3" ∉ fs0)
    (h2 : "./stems/vocals_song.mp3" ∉ fs0)
    (h3 : "./subtitles/vocals_song.srt" ∉ fs0) :
    (create env fs0 "song.mp4").fileWrites
      = ["song.mp3", "./stems/drums_song.mp3", "./stems/bass_song.mp3",
         "./stems/other_song.mp3", "./stems/vocals_song.mp3",
         "./stems/music_song.mp3", "./subtitles/vocals_song.srt",
         "./output/karaoke_song.mp4"] := by
  obtain ⟨tr, hp, hw⟩ := hps
  have eap : audioPathOf "song.mp4" = "song.mp3" := rfl
  have hm : video_to_mp3 fs0 "song.mp4"
      = ⟨"song.mp3", "song.mp3" :: fs0, ["song.mp3"]⟩ := by
    have h := video_to_mp3_miss fs0 "song.mp4" (by rw [eap]; exact h1)
    rw [eap] at h
    exact h
  have hcond2 : "./stems/vocals_" ++ basename "song.mp3" ∉ ("song.mp3" :: fs0) := by
    intro hmem
    rcases List.mem_cons.mp hmem with he | hmem2
    · exact absurd he (by decide)
    · exact h2 hmem2
  have hs := separate_stems_miss env.sep ("song.mp3" :: fs0) "song.mp3" hcond2
  have hcond3 : subtitlePathOf ("./stems/vocals_" ++ basename "song.mp3")
      ∉ ((stemEntries env.sep (basename "song.mp3")).map Prod.fst
          ++ ensureDir "./stems" ("song.mp3" :: fs0)) := by
    intro hmem
    rcases List.mem_append.mp hmem with hL | hR
    · simp only [stemEntries, List.map_cons, List.map_nil] at hL
      revert hL
      decide
    · rcases mem_of_mem_ensureDir hR with he | hm3
      · exact absurd he (by decide)
      · rcases List.mem_cons.mp hm3 with he2 | hm4
        · exact absurd he2 (by decide)
        · exact h3 hm4
  have htr := transcribe_success_one_pass env.tenv
    ((stemEntries env.sep (basename "song.mp3")).map Prod.fst
      ++ ensureDir "./stems" ("song.mp3" :: fs0))
    ("./stems/vocals_" ++ basename "song.mp3") hcond3 hml tr hp hw
  simp only [create_writes_eq, create_trans_eq, create_sep_eq, create_extract_eq,
    create_outPath_eq]
  simp only [hm, hs, htr]
  simp only [stemEntries, List.map_cons, List.map_nil, Prod.fst]
  decide

theorem C5_first_run_artifacts_witness :
    (create env0 ["song.mp4"] "song.mp4").fileWrites
      = ["song.mp3", "./stems/drums_song.mp3", "./stems/bass_song.mp3",
         "./stems/other_song.mp3", "./stems/vocals_song.mp3",
         "./stems/music_song.mp3", "./subtitles/vocals_song.srt",
         "./output/karaoke_song.mp4"] :=
  C5_first_run_artifacts env0 ["song.mp4"] rfl ⟨[⟨0, 1, "la"⟩], rfl, rfl⟩
    (by decide) (by decide) (by decide)

/-- C6: when the first run's transcription stage completed (its return is not
the failure sentinel), a second run of the pipeline on the same input against
the resulting file system hits every cache — extraction, separation and
transcription write nothing, so the only write of the second run is the output
video — and both runs write an output video. -/
theorem C6_second_run_cached (env : Env) (fs0 : List String) (p : String)
    (ht : (create env fs0 p).trans.ret ≠ "") :
    (create env (create env fs0 p).fs p).extract.fileWrites = [] ∧
      (create env (create env fs0 p).fs p).sepOut.fileWrites = [] ∧
      (create env (create env fs0 p).fs p).trans.fileWrites = [] ∧
      (create env (create env fs0 p).fs p).fileWrites
        = [(create env (create env fs0 p).fs p).outPath] ∧
      (create env fs0 p).outPath ∈ (create env fs0 p).fileWrites ∧
      (create env (create env fs0 p).fs p).outPath
        ∈ (create env (create env fs0 p).fs p).fileWrites := by
  have hap1 : audioPathOf p ∈ (video_to_mp3 fs0 p).fs :=
    audioPath_mem_video_to_mp3_fs fs0 p
  have hap2 : audioPathOf p ∈ (create env fs0 p).sepOut.fs := by
    rw [create_sep_eq]
    exact mem_separate_stems_fs _ _ _ _ hap1
  have hap3 : audioPathOf p ∈ (create env fs0 p).trans.fs := by
    rw [create_trans_eq]
    exact mem_transcribe_fs _ _ _ _ _ hap2
  have hap4 : audioPathOf p ∈ (create env fs0 p).fs := by
    rw [create_fs_eq]
    exact List.mem_cons_of_mem _ (mem_ensureDir_of_mem _ _ _ hap3)
  have hvp_eq : (create env fs0 p).sepOut.vocalsPath
      = "./stems/vocals_" ++ basename (audioPathOf p) := by
    rw [create_sep_eq, separate_stems_vocalsPath, video_to_mp3_ret]
  have hvp2 : "./stems/vocals_" ++ basename (audioPathOf p)
      ∈ (create env fs0 p).sepOut.fs := by
    rw [create_sep_eq, video_to_mp3_ret]
    exact vocals_mem_separate_stems_fs env.sep (video_to_mp3 fs0 p).fs (audioPathOf p)
  have hvp3 : "./stems/vocals_" ++ basename (audioPathOf p)
      ∈ (create env fs0 p).trans.fs := by
    rw [create_trans_eq]
    exact mem_transcribe_fs _ _ _ _ _ hvp2
  have hvp4 : "./stems/vocals_" ++ basename (audioPathOf p) ∈ (create env fs0 p).fs := by
    rw [create_fs_eq]
    exact List.mem_cons_of_mem _ (mem_ensureDir_of_mem _ _ _ hvp3)
  have ht2 : (transcribe env.tenv (create env fs0 p).sepOut.fs
      (create env fs0 p).sepOut.vocalsPath NUM_PASSES).ret ≠ "" := by
    rw [← create_trans_eq]
    exact ht
  have hsp := transcribe_ret_of_ne _ _ _ _ ht2
  have hsp3 : subtitlePathOf ("./stems/vocals_" ++ basename (audioPathOf p))
      ∈ (create env fs0 p).trans.fs := by
    rw [create_trans_eq, ← hvp_eq]
    exact hsp.2
  have hsp4 : subtitlePathOf ("./stems/vocals_" ++ basename (audioPathOf p))
      ∈ (create env fs0 p).fs := by
    rw [create_fs_eq]
    exact List.mem_cons_of_mem _ (mem_ensureDir_of_mem _ _ _ hsp3)
  have r2m : video_to_mp3 (create env fs0 p).fs p
      = ⟨audioPathOf p, (create env fs0 p).fs, []⟩ :=
    video_to_mp3_hit _ _ hap4
  have r2s := separate_stems_hit env.sep (create env fs0 p).fs (audioPathOf p) hvp4
  have hsp5 : subtitlePathOf ("./stems/vocals_" ++ basename (audioPathOf p))
      ∈ ensureDir "./stems" (create env fs0 p).fs :=
    mem_ensureDir_of_mem _ _ _ hsp4
  have r2t := transcribe_hit env.tenv (ensureDir "./stems" (create env fs0 p).fs)
    ("./stems/vocals_" ++ basename (audioPathOf p)) NUM_PASSES hsp5
  refine ⟨?_, ?_, ?_, ?_, outPath_mem_create_writes env fs0 p,
    outPath_mem_create_writes env (create env fs0 p).fs p⟩
  · simp only [create_extract_eq, r2m]
  · simp only [create_sep_eq, r2m, r2s]
  · simp only [create_trans_eq, create_sep_eq, r2m, r2s, r2t]
  · simp only [create_writes_eq, create_trans_eq, create_sep_eq, create_extract_eq,
      r2m, r2s, r2t]
    simp

theorem C6_second_run_cached_witness :
    (create env0 (create env0 ["song.mp4"] "song.mp4").fs "song.mp4").extract.fileWrites
        = [] ∧
      (create env0 (create env0 ["song.mp4"] "song.mp4").fs "song.mp4").sepOut.fileWrites
        = [] ∧
      (create env0 (create env0 ["song.mp4"] "song.mp4").fs "song.mp4").trans.fileWrites
        = [] ∧
      (create env0 (create env0 ["song.mp4"] "song.mp4").fs "song.mp4").fileWrites
        = [(create env0 (create env0 ["song.mp4"] "song.mp4").fs "song.mp4").outPath] ∧
      (create env0 ["song.mp4"] "song.mp4").outPath
        ∈ (create env0 ["song.mp4"] "song.mp4").fileWrites ∧
      (create env0 (create env0 ["song.mp4"] "song.mp4").fs "song.mp4").outPath
        ∈ (create env0 (create env0 ["song.mp4"] "song.mp4").fs "song.mp4").fileWrites :=
  C6_second_run_cached env0 ["song.mp4"] "song.mp4" (by decide)

end Karaoke
